import Mathlib

/-!
Verification of the backend-logger service (src/app.py) against its
natural-language specification.

The service is a Flask app over a single PostgreSQL table api_calls.  We embed
the data-access layer shallowly: the table is a list of rows in insertion
order, wall-clock time is an explicit Nat argument, and the possible store
faults (connection failure, insert/query failure) are explicit Bool
parameters.  Side effects on the connection are recorded as an event trace so
that claims about "no store access", "rollback before close" and "connection
released on every exit path" are statable.
-/

namespace BackendLogger

/-- Truthiness of a Python string-or-None value: `None` and `""` are falsy.
Embeds checks like `if not endpoint:` in app.py. -/
def strFalsy : Option String → Bool
  | none => true
  | some s => decide (s = "")

/-- The JSON body of a track request as the code reads it: field
`calledService` (string) and field `id` (integer), either possibly absent.
Stored verbatim as the row's request_body. -/
structure TrackBody where
  calledService : Option String
  id : Option Int
deriving DecidableEq, Repr

/-- One row of the api_calls table.  The column list follows spec section 3
(the CREATE TABLE is not in src/); the INSERT in log_call (app.py lines
137-140) names only endpoint, method, ip_address, request_body, status_code
and called_at, so external_user_id is never supplied and takes the column's
NULL default.  The auto-increment id column is the list position and is
omitted. -/
structure Row where
  external_user_id : Option Int
  endpoint : String
  method : String
  ip_address : String
  request_body : Option TrackBody
  status_code : Nat
  called_at : Nat
deriving DecidableEq, Repr

/-- Connection-level events, in the order they happen, used to state the
resource-discipline claims.  `connectFail` is a connection attempt that
raised (no connection object exists afterwards); `connect` is a successful
open. -/
inductive Ev where
  | connectFail
  | connect
  | execInsert
  | commit
  | rollback
  | query
  | fetch
  | close
deriving DecidableEq, Repr

/-- Result of log_call: the boolean the caller receives, the table contents
afterwards, and the event trace. -/
structure LogResult where
  ok : Bool
  rows : List Row
  events : List Ev
deriving DecidableEq, Repr

/-- Python default of log_call's status_code parameter (app.py line 124);
both call sites omit the argument. -/
def statusCodeDefault : Nat := 200

/-- Embeds log_call (app.py lines 124-150).  An empty/None endpoint returns
False before get_db_connection is called (empty trace).  A failed connection
attempt returns False.  A failed INSERT raises, the except branch rolls the
transaction back (the table is unchanged) and the finally branch closes the
connection.  On success the row is committed and the connection closed.
`now` is the datetime.now() stamped at the insert. -/
def log_call (endpoint : Option String) (method ip : String)
    (request_body : Option TrackBody) (status_code : Nat) (now : Nat)
    (connOk insertOk : Bool) (rows : List Row) : LogResult :=
  if strFalsy endpoint then ⟨false, rows, []⟩
  else if connOk = false then ⟨false, rows, [Ev.connectFail]⟩
  else if insertOk = false then
    ⟨false, rows, [Ev.connect, Ev.execInsert, Ev.rollback, Ev.close]⟩
  else
    ⟨true,
     rows ++ [⟨none, endpoint.getD "", method, ip, request_body, status_code, now⟩],
     [Ev.connect, Ev.execInsert, Ev.commit, Ev.close]⟩

/-- The projection SELECTed by get_last_called (app.py lines 161-166). -/
structure LastRow where
  endpoint : String
  method : String
  ip_address : String
  called_at : Nat
deriving DecidableEq, Repr

/-- Projection of a table row onto the SELECTed columns. -/
def rowToLast (r : Row) : LastRow :=
  ⟨r.endpoint, r.method, r.ip_address, r.called_at⟩

/-- One step of scanning for the row with maximal called_at: keep the current
best unless the next row is strictly later (one fixed representative of the
store-defined tie-break in ORDER BY called_at DESC). -/
def pickLater (b x : Row) : Row :=
  if b.called_at < x.called_at then x else b

/-- `ORDER BY called_at DESC LIMIT 1` over the table: some row of maximal
called_at, none when the table is empty. -/
def maxByCalledAt : List Row → Option Row
  | [] => none
  | r :: rs => some (rs.foldl pickLater r)

/-- Embeds get_last_called (app.py lines 152-173): None on connection
failure, None on query failure, otherwise fetchone of the ordered query —
which is also None when the table is empty. -/
def get_last_called (connOk queryOk : Bool) (rows : List Row) : Option LastRow :=
  if connOk = false then none
  else if queryOk = false then none
  else (maxByCalledAt rows).map rowToLast

/-- Number of table rows whose endpoint is string-equal to `e`
(COUNT(*) within one GROUP BY endpoint group). -/
def countFor (rows : List Row) (e : String) : Nat :=
  (rows.filter (fun r => decide (r.endpoint = e))).length

/-- Adds an endpoint to the list of group keys if not already present. -/
def addEndpoint (acc : List String) (e : String) : List String :=
  if e ∈ acc then acc else acc ++ [e]

/-- The distinct endpoints of the table, in order of first occurrence
(the GROUP BY keys). -/
def distinctEndpoints (rows : List Row) : List String :=
  rows.foldl (fun acc r => addEndpoint acc r.endpoint) []

/-- `GROUP BY endpoint` with `COUNT(*)`: one (endpoint, count) pair per
distinct endpoint. -/
def groupCounts (rows : List Row) : List (String × Nat) :=
  (distinctEndpoints rows).map (fun e => (e, countFor rows e))

/-- Stable insertion into a list sorted by descending count: the new pair
goes after existing pairs of greater-or-equal count. -/
def insertByCount (x : String × Nat) : List (String × Nat) → List (String × Nat)
  | [] => [x]
  | y :: ys => if y.2 < x.2 then x :: y :: ys else y :: insertByCount x ys

/-- `ORDER BY count DESC` as a stable insertion sort (ties keep the
store-defined group order). -/
def sortByCountDesc : List (String × Nat) → List (String × Nat)
  | [] => []
  | x :: xs => insertByCount x (sortByCountDesc xs)

/-- Embeds get_most_frequent (app.py lines 176-198): None on connection or
query failure, otherwise fetchone of the grouped, count-descending query —
None again when the table is empty. -/
def get_most_frequent (connOk queryOk : Bool) (rows : List Row) :
    Option (String × Nat) :=
  if connOk = false then none
  else if queryOk = false then none
  else (sortByCountDesc (groupCounts rows)).head?

/-- Embeds get_counts (app.py lines 201-222): None on connection or query
failure, otherwise fetchall of the grouped, count-descending query — the
empty list when the table is empty. -/
def get_counts (connOk queryOk : Bool) (rows : List Row) :
    Option (List (String × Nat)) :=
  if connOk = false then none
  else if queryOk = false then none
  else some (sortByCountDesc (groupCounts rows))

/-- Embeds check_database_health (app.py lines 225-241): False when the
connection attempt fails, False when SELECT 1 or its fetch raises (the
finally branch still closes the connection), True only when connect, query
and fetch all succeed. -/
def check_database_health (connOk queryOk fetchOk : Bool) : Bool × List Ev :=
  if connOk = false then (false, [Ev.connectFail])
  else if queryOk = false then (false, [Ev.connect, Ev.close])
  else if fetchOk = false then (false, [Ev.connect, Ev.query, Ev.close])
  else (true, [Ev.connect, Ev.query, Ev.fetch, Ev.close])

/-- Embeds `request.headers.get('X-Forwarded-For', request.remote_addr)`
(app.py lines 266 and 369): the whole header value when present, otherwise
the socket peer address.  No splitting or trimming is performed. -/
def requestIp (xff : Option String) (remote : String) : String :=
  xff.getD remote

/-- Characters of the first comma-separated segment. -/
def takeUntilComma : List Char → List Char
  | [] => []
  | c :: cs => if c = ',' then [] else c :: takeUntilComma cs

/-- Strips leading and trailing spaces. -/
def trimSpaces (l : List Char) : List Char :=
  ((l.dropWhile (fun c => c = ' ')).reverse.dropWhile (fun c => c = ' ')).reverse

/-- The IP-derivation rule as the spec words it (spec section 6): take the
X-Forwarded-For header if present, else the socket peer address, then split
on `,` and take the first trimmed segment.  Stated for comparison with
`requestIp`, the rule the code actually implements. -/
def specDerivedIp (xff : Option String) (remote : String) : String :=
  String.mk (trimSpaces (takeUntilComma (xff.getD remote).toList))

/-- Embeds Track.post (app.py lines 258-272): reads calledService from the
body (400 when falsy), derives the IP, calls log_call with method "POST",
the raw body as request_body and status_code left to its default; answers
201 on success and 500 on failure.  Returns the HTTP status and the table
contents afterwards. -/
def trackPost (reqBody : Option TrackBody) (xff : Option String)
    (remote : String) (now : Nat) (connOk insertOk : Bool)
    (rows : List Row) : Nat × List Row :=
  let data := reqBody.getD ⟨none, none⟩
  if strFalsy data.calledService then (400, rows)
  else
    let res := log_call data.calledService "POST" (requestIp xff remote)
      (some data) statusCodeDefault now connOk insertOk rows
    if res.ok then (201, res.rows) else (500, res.rows)

/-- The endpoints the auto-logging middleware skips (app.py lines 363-366). -/
def excluded_endpoints : List String :=
  ["stats_last_called", "stats_most_frequent", "stats_counts",
   "track_track", "health_health", "doc", "specs", "static"]

/-- Embeds the before_request middleware log_every_request (app.py lines
359-375): when the Flask endpoint is truthy and not excluded, calls log_call
with the request path, method, derived IP and JSON body, again leaving
status_code to its default.  Its result is discarded; only the table
changes. -/
def log_every_request (flaskEndpoint : Option String) (path method : String)
    (xff : Option String) (remote : String) (body : Option TrackBody)
    (now : Nat) (connOk insertOk : Bool) (rows : List Row) : List Row :=
  match flaskEndpoint with
  | none => rows
  | some e =>
    if e = "" ∨ e ∈ excluded_endpoints then rows
    else (log_call (some path) method (requestIp xff remote) body
      statusCodeDefault now connOk insertOk rows).rows

/-- HTTP status produced by LastCalled.get (app.py lines 285-291): the
handler tests the Python truthiness of the query result, so None → 500 and
a (necessarily non-empty) row dict → 200. -/
def lastCalledStatus (last : Option LastRow) : Nat :=
  match last with
  | some _ => 200
  | none => 500

/-- HTTP status produced by MostFrequent.get (app.py lines 305-311). -/
def mostFrequentStatus (most : Option (String × Nat)) : Nat :=
  match most with
  | some _ => 200
  | none => 500

/-- HTTP status produced by Counts.get (app.py lines 325-331): None is falsy
and so is the empty list, both → 500. -/
def countsStatus (counts : Option (List (String × Nat))) : Nat :=
  match counts with
  | some cs => if cs.isEmpty then 500 else 200
  | none => 500

/-- One table transition made by the program: either the explicit track
handler or the auto-logging middleware runs (these are the only two callers
of log_call in app.py). -/
inductive AppStep : List Row → List Row → Prop where
  | track : ∀ (reqBody : Option TrackBody) (xff : Option String)
      (remote : String) (now : Nat) (connOk insertOk : Bool)
      (rows : List Row),
      AppStep rows (trackPost reqBody xff remote now connOk insertOk rows).2
  | auto : ∀ (flaskEndpoint : Option String) (path method : String)
      (xff : Option String) (remote : String) (body : Option TrackBody)
      (now : Nat) (connOk insertOk : Bool) (rows : List Row),
      AppStep rows
        (log_every_request flaskEndpoint path method xff remote body now
          connOk insertOk rows)

/-- Table states reachable by the program from the empty table. -/
inductive ReachableRows : List Row → Prop where
  | init : ReachableRows []
  | step : ∀ (rows rows' : List Row), ReachableRows rows →
      AppStep rows rows' → ReachableRows rows'

/-! ## Lemmas about the last-called scan -/

/-- Scanning a list of rows all strictly earlier than `c`, starting from an
accumulator strictly earlier than `c`, stays strictly earlier than `c`. -/
theorem foldl_pickLater_lt (l : List Row) (acc : Row) (c : Nat)
    (hacc : acc.called_at < c) (hl : ∀ x ∈ l, x.called_at < c) :
    (l.foldl pickLater acc).called_at < c := by
  induction l generalizing acc with
  | nil => exact hacc
  | cons a l ih =>
    simp only [List.foldl_cons]
    refine ih (pickLater acc a) ?_ (fun x hx => hl x (by simp [hx]))
    unfold pickLater
    split
    · exact hl a (by simp)
    · exact hacc

/-- The scan keeps the strictly later of two rows. -/
theorem pickLater_eq_of_lt (b x : Row) (h : b.called_at < x.called_at) :
    pickLater b x = x := by
  unfold pickLater
  exact if_pos h

/-- Appending a row strictly later than every existing row makes it the
row returned by `ORDER BY called_at DESC LIMIT 1`. -/
theorem maxByCalledAt_append_fresh (l : List Row) (new : Row)
    (h : ∀ x ∈ l, x.called_at < new.called_at) :
    maxByCalledAt (l ++ [new]) = some new := by
  cases l with
  | nil => rfl
  | cons r rs =>
    have hlt : (rs.foldl pickLater r).called_at < new.called_at :=
      foldl_pickLater_lt rs r new.called_at (h r (by simp))
        (fun x hx => h x (by simp [hx]))
    show some ((rs ++ [new]).foldl pickLater r) = some new
    rw [List.foldl_append, List.foldl_cons, List.foldl_nil,
      pickLater_eq_of_lt _ _ hlt]

/-- C1: for a call-record with non-empty endpoint, a successful
record(endpoint, method, ip, ...) followed immediately by lastCalled() with
no intervening writes returns a record whose endpoint, method and ip_address
equal the submitted values and whose called_at is at least the time observed
immediately before the record call.  The write stamp `now` is taken after
`tBefore` (the clock is monotone) and strictly after every already-stored
stamp (sub-record time precision, as the spec's single-writer assumption
grants). -/
theorem C1_record_then_lastCalled (endpoint method ip : String)
    (body : Option TrackBody) (now tBefore : Nat) (rows : List Row)
    (hne : endpoint ≠ "")
    (hfresh : ∀ r ∈ rows, r.called_at < now)
    (ht : tBefore ≤ now) :
    (log_call (some endpoint) method ip body statusCodeDefault now true true
      rows).ok = true ∧
    ∃ lr : LastRow,
      get_last_called true true
        (log_call (some endpoint) method ip body statusCodeDefault now true
          true rows).rows = some lr ∧
      lr.endpoint = endpoint ∧ lr.method = method ∧ lr.ip_address = ip ∧
      tBefore ≤ lr.called_at := by
  have hsf : strFalsy (some endpoint) = false := by
    simp [strFalsy, hne]
  have hok : (log_call (some endpoint) method ip body statusCodeDefault now
      true true rows).ok = true := by
    simp [log_call, hsf]
  have hrows : (log_call (some endpoint) method ip body statusCodeDefault now
      true true rows).rows
      = rows ++ [⟨none, endpoint, method, ip, body, statusCodeDefault, now⟩] := by
    simp [log_call, hsf]
  refine ⟨hok, ⟨endpoint, method, ip, now⟩, ?_, rfl, rfl, rfl, ht⟩
  rw [hrows]
  unfold get_last_called
  rw [maxByCalledAt_append_fresh rows
    ⟨none, endpoint, method, ip, body, statusCodeDefault, now⟩ hfresh]
  rfl

/-- C1 witness: a concrete record over a one-row table is returned by the
following lastCalled with the submitted fields and a stamp past the
pre-call clock. -/
theorem C1_record_then_lastCalled_witness :
    (log_call (some "/api/users") "POST" "203.0.113.5" none statusCodeDefault
      5 true true [⟨none, "/a", "GET", "1.1.1.1", none, 200, 1⟩]).ok = true ∧
    ∃ lr : LastRow,
      get_last_called true true
        (log_call (some "/api/users") "POST" "203.0.113.5" none
          statusCodeDefault 5 true true
          [⟨none, "/a", "GET", "1.1.1.1", none, 200, 1⟩]).rows = some lr ∧
      lr.endpoint = "/api/users" ∧ lr.method = "POST" ∧
      lr.ip_address = "203.0.113.5" ∧ 3 ≤ lr.called_at :=
  C1_record_then_lastCalled "/api/users" "POST" "203.0.113.5" none 5 3
    [⟨none, "/a", "GET", "1.1.1.1", none, 200, 1⟩]
    (by decide) (by decide) (by decide)

/-- C6: a record call with an empty or absent endpoint fails immediately
with the validation result False, produces no store event at all (in
particular no connection attempt), and leaves the table unchanged. -/
theorem C6_empty_endpoint_no_store_access (endpoint : Option String)
    (method ip : String) (body : Option TrackBody) (sc now : Nat)
    (connOk insertOk : Bool) (rows : List Row)
    (h : strFalsy endpoint = true) :
    log_call endpoint method ip body sc now connOk insertOk rows
      = ⟨false, rows, []⟩ := by
  simp [log_call, h]

/-- C6 witness: recording with the empty endpoint touches nothing. -/
theorem C6_empty_endpoint_no_store_access_witness :
    log_call (some "") "POST" "1.2.3.4" none 200 7 true true [] =
      ⟨false, [], []⟩ :=
  C6_empty_endpoint_no_store_access (some "") "POST" "1.2.3.4" none 7 200
    true true [] (by decide)

/-- C7: whenever record fails after a connection was opened, the trace is
connect, insert, rollback, close — the rollback precedes the close and the
table is unchanged; whenever a connection was opened the trace ends with
close; the caller always receives a boolean, namely validation-passed and
connect and insert all succeeded; and any failure leaves the table
unchanged. -/
theorem C7_rollback_and_release (endpoint : Option String)
    (method ip : String) (body : Option TrackBody) (sc now : Nat)
    (connOk insertOk : Bool) (rows : List Row) :
    ((Ev.connect ∈ (log_call endpoint method ip body sc now connOk insertOk
          rows).events ∧
        (log_call endpoint method ip body sc now connOk insertOk rows).ok
          = false) →
      (log_call endpoint method ip body sc now connOk insertOk rows).events
          = [Ev.connect, Ev.execInsert, Ev.rollback, Ev.close] ∧
        (log_call endpoint method ip body sc now connOk insertOk rows).rows
          = rows) ∧
    (Ev.connect ∈ (log_call endpoint method ip body sc now connOk insertOk
        rows).events →
      (log_call endpoint method ip body sc now connOk insertOk
        rows).events.getLast? = some Ev.close) ∧
    (log_call endpoint method ip body sc now connOk insertOk rows).ok
      = (!strFalsy endpoint && (connOk && insertOk)) ∧
    ((log_call endpoint method ip body sc now connOk insertOk rows).ok = false
      → (log_call endpoint method ip body sc now connOk insertOk rows).rows
          = rows) := by
  cases hs : strFalsy endpoint <;> cases connOk <;> cases insertOk <;>
    simp [log_call, hs]

/-- C7 witness: a concrete insert failure rolls back before closing and
keeps the table unchanged. -/
theorem C7_rollback_and_release_witness :
    (log_call (some "/a") "GET" "1.1.1.1" none 200 3 true false []).events
        = [Ev.connect, Ev.execInsert, Ev.rollback, Ev.close] ∧
      (log_call (some "/a") "GET" "1.1.1.1" none 200 3 true false []).rows
        = [] :=
  (C7_rollback_and_release (some "/a") "GET" "1.1.1.1" none 200 3 true false
    []).1 (by decide)

/-- C8: checkHealth returns true exactly when connect, the round-trip query
and its fetch all succeed, and whenever a connection was opened the trace
ends with close. -/
theorem C8_health_iff_and_release (connOk queryOk fetchOk : Bool) :
    ((check_database_health connOk queryOk fetchOk).1 = true ↔
      connOk = true ∧ queryOk = true ∧ fetchOk = true) ∧
    (Ev.connect ∈ (check_database_health connOk queryOk fetchOk).2 →
      (check_database_health connOk queryOk fetchOk).2.getLast?
        = some Ev.close) := by
  cases connOk <;> cases queryOk <;> cases fetchOk <;> decide

/-- C8 witness: with everything healthy the connection is still closed at
the end of the probe. -/
theorem C8_health_iff_and_release_witness :
    (check_database_health true true true).2.getLast? = some Ev.close :=
  (C8_health_iff_and_release true true true).2 (by decide)

/-- C2 counterexample: a track request arriving with X-Forwarded-For
"203.0.113.5, 10.0.0.1" stores the whole header value, not "203.0.113.5";
the spec's split-and-trim rule would have produced "203.0.113.5". -/
theorem C2_counterexample :
    ((trackPost (some ⟨some "/api/users", some 7⟩)
        (some "203.0.113.5, 10.0.0.1") "10.0.0.9" 1 true true []).2.map
          Row.ip_address = ["203.0.113.5, 10.0.0.1"]) ∧
    ("203.0.113.5, 10.0.0.1" : String) ≠ "203.0.113.5" ∧
    specDerivedIp (some "203.0.113.5, 10.0.0.1") "10.0.0.9"
      = "203.0.113.5" := by
  decide

/-- C2 amended: for every inbound request that stores a row — an explicit
track call or any non-excluded request seen by the auto-logging middleware —
the stored ip_address is the raw value of request.headers.get, i.e. the
whole X-Forwarded-For header when present and otherwise the socket peer
address; no splitting on ',' and no trimming is performed on either path. -/
theorem C2_raw_header_stored (data : TrackBody)
    (flaskEndpoint path method : String) (xff : Option String)
    (remote : String) (now now' : Nat) (body : Option TrackBody)
    (rows rows' : List Row)
    (h : strFalsy data.calledService = false)
    (hfe : flaskEndpoint ≠ "")
    (hexc : flaskEndpoint ∉ excluded_endpoints)
    (hp : path ≠ "") :
    (∃ r : Row, (trackPost (some data) xff remote now true true rows).2
        = rows ++ [r] ∧ r.ip_address = requestIp xff remote ∧
        r.ip_address = xff.getD remote) ∧
    (∃ r : Row, log_every_request (some flaskEndpoint) path method xff
        remote body now' true true rows' = rows' ++ [r] ∧
        r.ip_address = requestIp xff remote ∧
        r.ip_address = xff.getD remote) := by
  constructor
  · refine ⟨⟨none, data.calledService.getD "", "POST", requestIp xff remote,
      some data, statusCodeDefault, now⟩, ?_, rfl, rfl⟩
    simp [trackPost, log_call, h]
  · refine ⟨⟨none, path, method, requestIp xff remote, body,
      statusCodeDefault, now'⟩, ?_, rfl, rfl⟩
    have hsf : strFalsy (some path) = false := by simp [strFalsy, hp]
    simp only [log_every_request]
    rw [if_neg (by simp [hfe, hexc])]
    simp [log_call, hsf]

/-- C2 amended witness: the scenario header is stored whole, both by the
track handler and by the middleware logging a non-excluded request. -/
theorem C2_raw_header_stored_witness :
    (∃ r : Row, (trackPost (some ⟨some "/api/users", some 7⟩)
        (some "203.0.113.5, 10.0.0.1") "10.0.0.9" 1 true true []).2
        = [] ++ [r] ∧
      r.ip_address = requestIp (some "203.0.113.5, 10.0.0.1") "10.0.0.9" ∧
      r.ip_address = (some "203.0.113.5, 10.0.0.1" : Option String).getD
        "10.0.0.9") ∧
    (∃ r : Row, log_every_request (some "users_list") "/api/users" "GET"
        (some "203.0.113.5, 10.0.0.1") "10.0.0.9" none 2 true true []
        = [] ++ [r] ∧
      r.ip_address = requestIp (some "203.0.113.5, 10.0.0.1") "10.0.0.9" ∧
      r.ip_address = (some "203.0.113.5, 10.0.0.1" : Option String).getD
        "10.0.0.9") :=
  C2_raw_header_stored ⟨some "/api/users", some 7⟩ "users_list" "/api/users"
    "GET" (some "203.0.113.5, 10.0.0.1") "10.0.0.9" 1 2 none [] []
    (by decide) (by decide) (by decide) (by decide)

/-- C3 counterexample: a track request whose body carries id 7 inserts a row
whose external_user_id is null, not 7. -/
theorem C3_counterexample :
    (trackPost (some ⟨some "/api/users", some 7⟩) none "203.0.113.5" 1 true
        true []).2.map Row.external_user_id = [none] ∧
    (none : Option Int) ≠ some 7 := by
  decide

/-- C3 amended: log_call takes no external_user_id argument and its INSERT
column list omits the column, so every inserted row has a null
external_user_id; the caller-supplied body (including any id field) is
preserved only verbatim inside request_body. -/
theorem C3_no_external_user_id_column (endpoint : Option String)
    (method ip : String) (body : Option TrackBody) (sc now : Nat)
    (rows : List Row) (h : strFalsy endpoint = false) :
    ∃ r : Row, (log_call endpoint method ip body sc now true true rows).rows
        = rows ++ [r] ∧ r.external_user_id = none ∧
        r.request_body = body :=
  ⟨⟨none, endpoint.getD "", method, ip, body, sc, now⟩,
    by simp [log_call, h], rfl, rfl⟩

/-- C3 amended witness: the id-7 body row lands with null external_user_id
and the body kept whole in request_body. -/
theorem C3_no_external_user_id_column_witness :
    ∃ r : Row, (log_call (some "/api/users") "POST" "203.0.113.5"
        (some ⟨some "/api/users", some 7⟩) 200 1 true true []).rows
        = [] ++ [r] ∧ r.external_user_id = none ∧
      r.request_body = some ⟨some "/api/users", some 7⟩ :=
  C3_no_external_user_id_column (some "/api/users") "POST" "203.0.113.5"
    (some ⟨some "/api/users", some 7⟩) 200 1 [] (by decide)

/-- C4 counterexample: for lastCalled and mostFrequent, the value returned
on a connection failure equals the value returned by a successful query on
the empty table — both are None, so the two situations are not
distinguishable. -/
theorem C4_counterexample :
    get_last_called false true [] = get_last_called true true [] ∧
    get_most_frequent false true [] = get_most_frequent true true [] := by
  decide

/-- C4 amended: only counts distinguishes a store failure (None) from an
empty-table success (the empty list); lastCalled and mostFrequent return
None both on connection or query failure and on an empty table, so for those
two reads "no rows yet" and "store unreachable" coincide. -/
theorem C4_only_counts_distinguishes (rows : List Row) :
    get_counts false true rows = none ∧
    get_counts true false rows = none ∧
    get_counts true true [] = some [] ∧
    get_counts true true [] ≠ get_counts false true rows ∧
    get_last_called false true rows = none ∧
    get_last_called true false rows = none ∧
    get_last_called true true [] = none ∧
    get_most_frequent false true rows = none ∧
    get_most_frequent true false rows = none ∧
    get_most_frequent true true [] = none := by
  refine ⟨rfl, rfl, rfl, fun hcon => Option.noConfusion hcon, rfl, rfl, rfl,
    rfl, rfl, rfl⟩

/-- C9: on an empty table with the store reachable, the three stats handlers
all answer 500, and each answers exactly what it answers on a connection
failure — the truthiness branch conflates the two. -/
theorem C9_empty_table_gives_500 :
    lastCalledStatus (get_last_called true true []) = 500 ∧
    mostFrequentStatus (get_most_frequent true true []) = 500 ∧
    countsStatus (get_counts true true []) = 500 ∧
    lastCalledStatus (get_last_called true true [])
      = lastCalledStatus (get_last_called false true []) ∧
    mostFrequentStatus (get_most_frequent true true [])
      = mostFrequentStatus (get_most_frequent false true []) ∧
    countsStatus (get_counts true true [])
      = countsStatus (get_counts false true []) := by
  decide

/-! ## Lemmas about grouping and the descending sort -/

/-- Membership after adding a group key. -/
theorem mem_addEndpoint (acc : List String) (e x : String) :
    x ∈ addEndpoint acc e ↔ x ∈ acc ∨ x = e := by
  unfold addEndpoint
  split
  · rename_i hmem
    constructor
    · exact Or.inl
    · rintro (h | h)
      · exact h
      · exact h ▸ hmem
  · simp

/-- Adding a group key preserves freedom from duplicates. -/
theorem nodup_addEndpoint (acc : List String) (e : String) (h : acc.Nodup) :
    (addEndpoint acc e).Nodup := by
  unfold addEndpoint
  split
  · exact h
  · rename_i hmem
    simp [List.nodup_append, h, hmem]

/-- Membership in the accumulated group keys. -/
theorem mem_foldl_addEndpoint (rows : List Row) (acc : List String)
    (x : String) :
    x ∈ rows.foldl (fun a r => addEndpoint a r.endpoint) acc ↔
      x ∈ acc ∨ x ∈ rows.map Row.endpoint := by
  induction rows generalizing acc with
  | nil => simp
  | cons r rows ih =>
    simp only [List.foldl_cons, ih, mem_addEndpoint, List.map_cons,
      List.mem_cons]
    tauto

/-- The accumulated group keys stay duplicate-free. -/
theorem nodup_foldl_addEndpoint (rows : List Row) (acc : List String)
    (h : acc.Nodup) :
    (rows.foldl (fun a r => addEndpoint a r.endpoint) acc).Nodup := by
  induction rows generalizing acc with
  | nil => exact h
  | cons r rows ih => exact ih _ (nodup_addEndpoint _ _ h)

/-- The GROUP BY keys are duplicate-free. -/
theorem nodup_distinctEndpoints (rows : List Row) :
    (distinctEndpoints rows).Nodup :=
  nodup_foldl_addEndpoint rows [] (by simp)

/-- The GROUP BY keys are exactly the endpoints occurring in the table. -/
theorem mem_distinctEndpoints (rows : List Row) (x : String) :
    x ∈ distinctEndpoints rows ↔ x ∈ rows.map Row.endpoint := by
  unfold distinctEndpoints
  rw [mem_foldl_addEndpoint]
  simp

/-- The keys of the grouped pairs are the GROUP BY keys. -/
theorem map_fst_groupCounts (rows : List Row) :
    (groupCounts rows).map Prod.fst = distinctEndpoints rows := by
  unfold groupCounts
  rw [List.map_map]
  exact List.map_id _

/-- Every grouped pair carries the exact row count of its key. -/
theorem snd_of_mem_groupCounts (rows : List Row) (p : String × Nat)
    (h : p ∈ groupCounts rows) : p.2 = countFor rows p.1 := by
  unfold groupCounts at h
  rcases List.mem_map.mp h with ⟨e, _, rfl⟩
  rfl

/-- Inserting into the descending list is a permutation of consing. -/
theorem perm_insertByCount (x : String × Nat) (l : List (String × Nat)) :
    List.Perm (insertByCount x l) (x :: l) := by
  induction l with
  | nil => rfl
  | cons y ys ih =>
    unfold insertByCount
    split
    · exact List.Perm.refl _
    · exact (ih.cons y).trans (List.Perm.swap x y ys)

/-- The descending sort permutes its input. -/
theorem perm_sortByCountDesc (l : List (String × Nat)) :
    List.Perm (sortByCountDesc l) l := by
  induction l with
  | nil => rfl
  | cons x xs ih =>
    exact (perm_insertByCount x (sortByCountDesc xs)).trans (ih.cons x)

/-- Inserting into a count-descending list keeps it count-descending. -/
theorem pairwise_insertByCount (x : String × Nat) (l : List (String × Nat))
    (h : l.Pairwise (fun a b => b.2 ≤ a.2)) :
    (insertByCount x l).Pairwise (fun a b => b.2 ≤ a.2) := by
  induction l with
  | nil => simp [insertByCount]
  | cons y ys ih =>
    rw [List.pairwise_cons] at h
    obtain ⟨hy, hys⟩ := h
    unfold insertByCount
    split
    · rename_i hlt
      refine List.pairwise_cons.mpr ⟨?_, List.pairwise_cons.mpr ⟨hy, hys⟩⟩
      intro b hb
      rcases List.mem_cons.mp hb with rfl | hb
      · exact Nat.le_of_lt hlt
      · exact (hy b hb).trans (Nat.le_of_lt hlt)
    · rename_i hnlt
      refine List.pairwise_cons.mpr ⟨?_, ih hys⟩
      intro b hb
      rcases List.mem_cons.mp
          ((perm_insertByCount x ys).mem_iff.mp hb) with rfl | hb
      · exact Nat.le_of_not_lt hnlt
      · exact hy b hb

/-- The sort's output is count-descending. -/
theorem pairwise_sortByCountDesc (l : List (String × Nat)) :
    (sortByCountDesc l).Pairwise (fun a b => b.2 ≤ a.2) := by
  induction l with
  | nil => simp [sortByCountDesc]
  | cons x xs ih => exact pairwise_insertByCount x _ ih

/-- C5: counts returns exactly one pair per distinct endpoint of the table,
each carrying the number of rows whose endpoint is string-equal to its key,
in count-descending order; on an empty table it returns the empty sequence
(not the error value), and after two "/a" rows and one "/b" row it returns
[("/a", 2), ("/b", 1)]. -/
theorem C5_counts_grouped_sorted (rows : List Row) :
    get_counts true true [] = some [] ∧
    get_counts true true
        [⟨none, "/a", "POST", "1.1.1.1", none, 200, 1⟩,
         ⟨none, "/a", "POST", "1.1.1.1", none, 200, 2⟩,
         ⟨none, "/b", "POST", "1.1.1.1", none, 200, 3⟩]
      = some [("/a", 2), ("/b", 1)] ∧
    ∃ cs, get_counts true true rows = some cs ∧
      (cs.map Prod.fst).Nodup ∧
      (∀ e : String, e ∈ cs.map Prod.fst ↔ e ∈ rows.map Row.endpoint) ∧
      (∀ p ∈ cs, p.2 = countFor rows p.1) ∧
      cs.Pairwise (fun a b => b.2 ≤ a.2) := by
  refine ⟨rfl, by decide, sortByCountDesc (groupCounts rows), rfl, ?_, ?_,
    ?_, pairwise_sortByCountDesc _⟩
  · refine (((perm_sortByCountDesc (groupCounts rows)).map
      Prod.fst).nodup_iff).mpr ?_
    rw [map_fst_groupCounts]
    exact nodup_distinctEndpoints rows
  · intro e
    rw [((perm_sortByCountDesc (groupCounts rows)).map Prod.fst).mem_iff,
      map_fst_groupCounts, mem_distinctEndpoints]
  · intro p hp
    exact snd_of_mem_groupCounts rows p
      ((perm_sortByCountDesc (groupCounts rows)).mem_iff.mp hp)

/-! ## The status_code invariant -/

/-- Any row present after a log_call was either already in the table or was
just inserted with the status_code the call received. -/
theorem log_call_mem_status (endpoint : Option String) (method ip : String)
    (body : Option TrackBody) (sc now : Nat) (connOk insertOk : Bool)
    (rows : List Row) (r : Row)
    (h : r ∈ (log_call endpoint method ip body sc now connOk insertOk
      rows).rows) :
    r ∈ rows ∨ r.status_code = sc := by
  unfold log_call at h
  split at h
  · exact Or.inl h
  · split at h
    · exact Or.inl h
    · split at h
      · exact Or.inl h
      · rcases List.mem_append.mp h with hmem | hmem
        · exact Or.inl hmem
        · have heq := List.mem_singleton.mp hmem
          subst heq
          exact Or.inr rfl

/-- Any row present after the track handler ran was either already in the
table or carries status_code 200. -/
theorem trackPost_mem_status (reqBody : Option TrackBody)
    (xff : Option String) (remote : String) (now : Nat)
    (connOk insertOk : Bool) (rows : List Row) (r : Row)
    (h : r ∈ (trackPost reqBody xff remote now connOk insertOk rows).2) :
    r ∈ rows ∨ r.status_code = 200 := by
  unfold trackPost at h
  simp only [] at h
  split at h
  · exact Or.inl h
  · split at h <;>
      exact log_call_mem_status _ _ _ _ statusCodeDefault _ _ _ _ _ h

/-- Any row present after the auto-logging middleware ran was either already
in the table or carries status_code 200. -/
theorem log_every_request_mem_status (flaskEndpoint : Option String)
    (path method : String) (xff : Option String) (remote : String)
    (body : Option TrackBody) (now : Nat) (connOk insertOk : Bool)
    (rows : List Row) (r : Row)
    (h : r ∈ log_every_request flaskEndpoint path method xff remote body now
      connOk insertOk rows) :
    r ∈ rows ∨ r.status_code = 200 := by
  cases flaskEndpoint with
  | none => exact Or.inl h
  | some e =>
    simp only [log_every_request] at h
    by_cases hc : e = "" ∨ e ∈ excluded_endpoints
    · rw [if_pos hc] at h
      exact Or.inl h
    · rw [if_neg hc] at h
      exact log_call_mem_status _ _ _ _ statusCodeDefault _ _ _ _ _ h

/-- C10: in every table state the program can reach from the empty table,
every stored row has status_code 200 — neither the track handler nor the
middleware ever supplies the status_code argument, so log_call's default
applies to every insert. -/
theorem C10_all_rows_status_200 (rows : List Row) (h : ReachableRows rows) :
    ∀ r ∈ rows, r.status_code = 200 := by
  induction h with
  | init => intro r hr; cases hr
  | step rows rows' hreach hstep ih =>
    intro r hr
    cases hstep with
    | track reqBody xff remote now connOk insertOk =>
      rcases trackPost_mem_status reqBody xff remote now connOk insertOk
        rows r hr with hmem | hs
      · exact ih r hmem
      · exact hs
    | auto flaskEndpoint path method xff remote body now connOk insertOk =>
      rcases log_every_request_mem_status flaskEndpoint path method xff
        remote body now connOk insertOk rows r hr with hmem | hs
      · exact ih r hmem
      · exact hs

/-- C10 witness: the row inserted by a concrete successful track call is in
a reachable state and has status_code 200. -/
theorem C10_all_rows_status_200_witness :
    (⟨none, "/a", "POST", "1.2.3.4", some ⟨some "/a", none⟩, 200, 5⟩
      : Row).status_code = 200 := by
  have hstep := AppStep.track (some ⟨some "/a", none⟩) none "1.2.3.4" 5
    true true []
  have heq : (trackPost (some ⟨some "/a", none⟩) none "1.2.3.4" 5 true true
      []).2
      = [⟨none, "/a", "POST", "1.2.3.4", some ⟨some "/a", none⟩, 200, 5⟩]
    := by decide
  have hreach : ReachableRows
      [⟨none, "/a", "POST", "1.2.3.4", some ⟨some "/a", none⟩, 200, 5⟩] := by
    rw [← heq]
    exact ReachableRows.step [] _ ReachableRows.init hstep
  exact C10_all_rows_status_200 _ hreach _ (by simp)

end BackendLogger
